import Mathlib

/-!
Verification of the albert-github plugin (src/__init__.py).

The file embeds the plugin's search core in Lean:
* `Repo` is the repository record built by `get_user_repositories`;
* `classifyRepos`, `sortFuzzy`, `searchItems`, `searchEmission` and
  `handleTriggerQuery` follow the body of `Plugin.handleTriggerQuery`;
* `cache_repositories` / `load_cached_repositories` model the cache store at
  the JSON-value level, and `cacheWriteStates` models the byte-level states of
  the `open(CACHE_FILE, "w")` + `json.dump` write;
* the rapidfuzz similarity `fuzz.token_set_ratio` is an external library call,
  so it enters the model as an abstract `Scorer` parameter.

Python string primitives are modelled over the character lists of `String`:
`pyStrip` is `str.strip()`, `pyLower` is `str.lower()` (exact on ASCII, which
is all the comparisons in the plugin use), `pyStartsWith` is `str.startswith`.
-/

namespace AlbertGithub

/-- One repository record as built in `get_user_repositories` (lines 48-61):
the dictionary with keys `name`, `full_name` and `html_url`. -/
structure Repo where
  name : String
  full_name : String
  html_url : String
deriving DecidableEq

/-- The whitespace characters removed by Python `str.strip()`:
space, tab, newline, carriage return, vertical tab and form feed. -/
def pyIsSpace (c : Char) : Bool :=
  c = ' ' || c = '\t' || c = '\n' || c = '\r' || c.toNat = 11 || c.toNat = 12

/-- Python `str.strip()`: drop leading and trailing whitespace. -/
def pyStrip (s : String) : String :=
  ⟨((s.data.dropWhile pyIsSpace).reverse.dropWhile pyIsSpace).reverse⟩

/-- Python `str.lower()`, character by character (exact on ASCII input). -/
def pyLower (s : String) : String :=
  ⟨s.data.map Char.toLower⟩

/-- Python `s.startswith(pre)`. -/
def pyStartsWith (s pre : String) : Bool :=
  pre.data.isPrefixOf s.data

/-- An action bound to a display item.  The string payloads are the values
captured when the item is built (the `lambda t=...:` / `lambda u=...:`
default-argument captures in the source). -/
inductive ItemAction where
  | saveToken (candidate : String)
  | createCache
  | refreshCache
  | openUrl (actionId : String) (url : String)
deriving DecidableEq

/-- A `StandardItem` as the plugin builds it (icon and constant id omitted). -/
structure Item where
  text : String
  subtext : String
  actions : List ItemAction
deriving DecidableEq

/-- `md_name` (line 19). -/
def md_name : String := "GitHub repositories"

/-- The token prompt (lines 90-94); the candidate token is the stripped query
text captured by the lambda default argument. -/
def tokenPromptItem (candidate : String) : Item :=
  Item.mk md_name "Paste your GitHub token and press [enter] to save it"
    [ItemAction.saveToken candidate]

/-- The cache-initialisation prompt (lines 99-103). -/
def cachePromptItem : Item :=
  Item.mk md_name "Press [enter] to initialize the repository cache (may take a few seconds)"
    [ItemAction.createCache]

/-- The cache-refresh prompt (lines 111-115). -/
def refreshPromptItem : Item :=
  Item.mk md_name "Press [enter] to refresh the local repository cache (may take a few seconds)"
    [ItemAction.refreshCache]

/-- The "no results" item (lines 155-157). -/
def noResultsItem : Item :=
  Item.mk "No repositories matching search string" "" []

/-- The empty-query placeholder (lines 160-163). -/
def placeholderItem : Item :=
  Item.mk "..." "Search for a GitHub user repository name" []

/-- A result item for an exact match (lines 139-143): the bound open action
captures this record's URL. -/
def mkExactItem (r : Repo) : Item :=
  Item.mk r.name r.full_name [ItemAction.openUrl "eopen" r.html_url]

/-- A result item for a fuzzy match (lines 146-150). -/
def mkFuzzyItem (r : Repo) : Item :=
  Item.mk r.name r.full_name [ItemAction.openUrl "fopen" r.html_url]

/-- The similarity measure `fuzz.token_set_ratio` is a call into the rapidfuzz
library; the model takes it as an abstract function returning a value of the
`[0,100]` scale as an exact rational. -/
abbrev Scorer := String → String → Rat

/-- The classification loop of `handleTriggerQuery` (lines 125-132): walk the
cached records in order; a record whose lowercased name starts with the search
term joins `exact_matches`, otherwise it is scored and joins `fuzzy_matches`
together with its score when the score exceeds 25. -/
def classifyRepos (scorer : Scorer) (searchTerm : String) :
    List Repo → List Repo × List (Repo × Rat)
  | [] => ([], [])
  | repo :: rest =>
    let p := classifyRepos scorer searchTerm rest
    if pyStartsWith (pyLower repo.name) searchTerm then
      (repo :: p.1, p.2)
    else if 25 < scorer (pyLower repo.name) searchTerm then
      (p.1, (repo, scorer (pyLower repo.name) searchTerm) :: p.2)
    else
      p

/-- The comparison underlying `fuzzy_matches.sort(key=lambda x: x[1],
reverse=True)`: keep `a` before `b` when `b`'s score does not exceed `a`'s. -/
def scoreDescLe (a b : Repo × Rat) : Bool :=
  decide (b.2 ≤ a.2)

/-- Line 135: Python `list.sort` is a stable sort, and with `reverse=True` it
orders by score descending while keeping equal-score entries in their original
order; modelled by the stable `List.mergeSort`. -/
def sortFuzzy (fs : List (Repo × Rat)) : List (Repo × Rat) :=
  fs.mergeSort scoreDescLe

/-- The result list built in lines 137-150: exact matches first, in cache
order, then the sorted fuzzy matches. -/
def searchItems (scorer : Scorer) (repositories : List Repo) (searchTerm : String) : List Item :=
  ((classifyRepos scorer searchTerm repositories).1).map mkExactItem ++
    (sortFuzzy (classifyRepos scorer searchTerm repositories).2).map (fun p => mkFuzzyItem p.1)

/-- Lines 152-157: emit the result items, or the "no results" item when the
result list is empty. -/
def searchEmission (scorer : Scorer) (repositories : List Repo) (searchTerm : String) : List Item :=
  let results := searchItems scorer repositories searchTerm
  if results.isEmpty then [noResultsItem] else results

/-- Python falsiness of the loaded token (`if not token:`): `None` or `""`. -/
def strFalsy : Option String → Bool
  | none => true
  | some s => s.isEmpty

/-- Python falsiness of the loaded cache (`if not repositories:`): `None` or
the empty list. -/
def reposFalsy : Option (List Repo) → Bool
  | none => true
  | some l => l.isEmpty

/-- `Plugin.handleTriggerQuery` (lines 85-163) as a function from the loaded
token, the loaded cache and the query string to the list of items added, in
emission order.  `query.add` calls append to the output; the early
`return []` on a missing cache (line 118) stops the search branch. -/
def handleTriggerQuery (scorer : Scorer) (token : Option String)
    (repositories : Option (List Repo)) (queryString : String) : List Item :=
  (if strFalsy token then [tokenPromptItem (pyStrip queryString)] else []) ++
  (if reposFalsy repositories then [cachePromptItem] else []) ++
  (if pyStrip queryString = "" then
    [placeholderItem]
  else
    (if pyLower (pyStrip queryString) = "refresh cache" then [refreshPromptItem] else []) ++
    (if reposFalsy repositories then []
     else searchEmission scorer (repositories.getD []) (pyLower (pyStrip queryString))))

/-- The three ways one record can come out of the classification loop. -/
inductive MatchClass where
  | exact
  | fuzzy
  | excluded
deriving DecidableEq

/-- The classification one record receives against a search term (lines
127-132): exact on lowered-name prefix match, else fuzzy exactly when the
score exceeds 25, else excluded from the results. -/
def classOf (scorer : Scorer) (name searchTerm : String) : MatchClass :=
  if pyStartsWith (pyLower name) searchTerm then MatchClass.exact
  else if 25 < scorer (pyLower name) searchTerm then MatchClass.fuzzy
  else MatchClass.excluded

/-- The JSON values exchanged with the cache file.  Only the shapes the plugin
produces and consumes appear: strings, arrays and objects. -/
inductive Json where
  | str (s : String)
  | arr (elems : List Json)
  | obj (fields : List (String × Json))

/-- The value `json.dump` receives in `cache_repositories`: the list of
dictionaries built by `get_user_repositories`. -/
def reposToJson (rs : List Repo) : Json :=
  Json.arr (rs.map fun r =>
    Json.obj [("name", Json.str r.name), ("full_name", Json.str r.full_name),
              ("html_url", Json.str r.html_url)])

/-- Dictionary key lookup, as the subscript accesses `repo["name"]` etc. -/
def jlookup (fields : List (String × Json)) (k : String) : Option Json :=
  (fields.find? (fun p => p.1 = k)).map Prod.snd

/-- Reading one parsed cache entry back as a record, mirroring the field
accesses `repo["name"]`, `repo["full_name"]`, `repo["html_url"]` performed on
the loaded object. -/
def jsonToRepo : Json → Option Repo
  | Json.obj fields =>
    match jlookup fields "name", jlookup fields "full_name", jlookup fields "html_url" with
    | some (Json.str n), some (Json.str f), some (Json.str u) => some (Repo.mk n f u)
    | _, _, _ => none
  | _ => none

/-- Reading a parsed list of cache entries back as records, element by
element. -/
def jsonToReposAux : List Json → Option (List Repo)
  | [] => some []
  | j :: rest =>
    match jsonToRepo j, jsonToReposAux rest with
    | some r, some rs => some (r :: rs)
    | _, _ => none

/-- Reading a whole parsed cache document back as records. -/
def jsonToRepos : Json → Option (List Repo)
  | Json.arr elems => jsonToReposAux elems
  | _ => none

/-- The cache file at the value level: absent, or holding one parsed JSON
document.  `json.dump` followed by `json.load` reproduces the dumped value, so
replace and load are stated on the JSON value it stores. -/
abbrev CacheFile := Option Json

/-- `cache_repositories` (lines 63-66) at the value level: after the write the
file holds the dumped repository list, whatever it held before. -/
def cache_repositories (repositories : List Repo) (_fs : CacheFile) : CacheFile :=
  some (reposToJson repositories)

/-- `load_cached_repositories` (lines 68-73): the parsed contents if the file
exists, else `None`. -/
def load_cached_repositories (fs : CacheFile) : Option Json :=
  fs

/-- One hexadecimal digit, lowercase, as in Python `\uXXXX` escapes. -/
def hexDigit (n : Nat) : Char :=
  if n < 10 then Char.ofNat (48 + n) else Char.ofNat (87 + n)

/-- Four hexadecimal digits. -/
def hex4 (n : Nat) : List Char :=
  [hexDigit (n / 4096 % 16), hexDigit (n / 256 % 16), hexDigit (n / 16 % 16), hexDigit (n % 16)]

/-- `json.dump`'s rendering of one string character: backslash escapes for the
quote, the backslash and common control characters, `\uXXXX` for the rest
outside printable ASCII (code points beyond one escape unit are not split into
surrogate pairs here; the repository names involved are ASCII). -/
def escChar (c : Char) : List Char :=
  if c = Char.ofNat 34 then [Char.ofNat 92, Char.ofNat 34]
  else if c = Char.ofNat 92 then [Char.ofNat 92, Char.ofNat 92]
  else if c = '\n' then [Char.ofNat 92, 'n']
  else if c = '\t' then [Char.ofNat 92, 't']
  else if c = '\r' then [Char.ofNat 92, 'r']
  else if c.toNat < 32 || 126 < c.toNat then Char.ofNat 92 :: 'u' :: hex4 c.toNat
  else [c]

/-- A rendered JSON string literal. -/
def jstrChars (s : String) : List Char :=
  Char.ofNat 34 :: (s.data.flatMap escChar) ++ [Char.ofNat 34]

/-- The rendered text of one cached record object, with `json.dump`'s default
separators. -/
def repoChars (r : Repo) : List Char :=
  [Char.ofNat 123] ++ jstrChars "name" ++ (": ").data ++ jstrChars r.name ++
    (", ").data ++ jstrChars "full_name" ++ (": ").data ++ jstrChars r.full_name ++
    (", ").data ++ jstrChars "html_url" ++ (": ").data ++ jstrChars r.html_url ++
    [Char.ofNat 125]

/-- The comma-separated rendering of the record list. -/
def dumpListChars : List Repo → List Char
  | [] => []
  | [r] => repoChars r
  | r :: rest => repoChars r ++ (", ").data ++ dumpListChars rest

/-- The full text `json.dump` writes for a repository list. -/
def dumpChars (rs : List Repo) : List Char :=
  '[' :: dumpListChars rs ++ [']']

/-- `cache_repositories` at the file-byte level: `open(CACHE_FILE, "w")` first
truncates the file to empty, then `json.dump` streams the serialized text into
it.  The list collects every state a reader (or a write failing partway) can
observe: the prior contents, then each prefix of the new text from the empty
truncated file up to the complete document. -/
def cacheWriteStates (old : Option (List Char)) (rs : List Repo) : List (Option (List Char)) :=
  old :: (List.range ((dumpChars rs).length + 1)).map (fun i => some ((dumpChars rs).take i))

/-- A similarity function used to instantiate the abstract scorer on concrete
inputs: every comparison scores 100. -/
def scorer100 : Scorer := fun _ _ => 100

/-- A concrete record used in concrete instantiations. -/
def repoA : Repo :=
  Repo.mk "albert-github" "aironskin/albert-github" "https://github.com/aironskin/albert-github"

/-- A second concrete record. -/
def repoB : Repo :=
  Repo.mk "other-tool" "aironskin/other-tool" "https://github.com/aironskin/other-tool"

/-! Helper lemmas about the classification loop, the sort and the items. -/

theorem classifyRepos_fst (scorer : Scorer) (t : String) (l : List Repo) :
    (classifyRepos scorer t l).1 = l.filter (fun r => pyStartsWith (pyLower r.name) t) := by
  induction l with
  | nil => rfl
  | cons r rest ih =>
    by_cases h1 : pyStartsWith (pyLower r.name) t = true
    · simp [classifyRepos, h1, ih, List.filter_cons]
    · by_cases h2 : 25 < scorer (pyLower r.name) t
      · simp [classifyRepos, h1, h2, ih, List.filter_cons]
      · simp [classifyRepos, h1, h2, ih, List.filter_cons]

theorem classifyRepos_snd (scorer : Scorer) (t : String) (l : List Repo) :
    (classifyRepos scorer t l).2 = l.filterMap (fun r =>
      if pyStartsWith (pyLower r.name) t then none
      else if 25 < scorer (pyLower r.name) t then some (r, scorer (pyLower r.name) t)
      else none) := by
  induction l with
  | nil => rfl
  | cons r rest ih =>
    by_cases h1 : pyStartsWith (pyLower r.name) t = true
    · simp [classifyRepos, h1, ih, List.filterMap_cons]
    · by_cases h2 : 25 < scorer (pyLower r.name) t
      · simp [classifyRepos, h1, h2, ih, List.filterMap_cons]
      · simp [classifyRepos, h1, h2, ih, List.filterMap_cons]

theorem mem_classifyRepos_snd (scorer : Scorer) (t : String) (l : List Repo)
    (r : Repo) (sc : Rat) :
    (r, sc) ∈ (classifyRepos scorer t l).2 ↔
      r ∈ l ∧ pyStartsWith (pyLower r.name) t = false ∧
        sc = scorer (pyLower r.name) t ∧ 25 < sc := by
  rw [classifyRepos_snd]
  simp only [List.mem_filterMap]
  constructor
  · rintro ⟨a, ha, hfa⟩
    by_cases h1 : pyStartsWith (pyLower a.name) t = true
    · simp [h1] at hfa
    · by_cases h2 : 25 < scorer (pyLower a.name) t
      · rw [if_neg h1, if_pos h2] at hfa
        injection hfa with h3
        cases h3
        exact ⟨ha, by simpa using h1, rfl, h2⟩
      · simp [h1, h2] at hfa
  · rintro ⟨hr, hnp, rfl, hsc⟩
    exact ⟨r, hr, by simp [hnp, hsc]⟩

theorem scoreDescLe_trans (a b c : Repo × Rat)
    (hab : scoreDescLe a b = true) (hbc : scoreDescLe b c = true) :
    scoreDescLe a c = true := by
  simp only [scoreDescLe, decide_eq_true_eq] at hab hbc ⊢
  exact le_trans hbc hab

theorem scoreDescLe_total (a b : Repo × Rat) :
    (scoreDescLe a b || scoreDescLe b a) = true := by
  simp only [scoreDescLe, Bool.or_eq_true, decide_eq_true_eq]
  exact le_total b.2 a.2

theorem sortFuzzy_perm (fs : List (Repo × Rat)) : (sortFuzzy fs).Perm fs :=
  List.mergeSort_perm fs scoreDescLe

theorem sortFuzzy_pairwise (fs : List (Repo × Rat)) :
    (sortFuzzy fs).Pairwise (fun a b => b.2 ≤ a.2) := by
  have h := List.sorted_mergeSort scoreDescLe_trans scoreDescLe_total fs
  exact h.imp (fun hab => by simpa [scoreDescLe] using hab)

theorem sortFuzzy_stable (fs : List (Repo × Rat)) (a b : Repo × Rat)
    (h : scoreDescLe a b = true) (hs : [a, b].Sublist fs) :
    [a, b].Sublist (sortFuzzy fs) :=
  List.sublist_mergeSort scoreDescLe_trans scoreDescLe_total
    (by simp [List.pairwise_cons, h]) hs

theorem mkExactItem_inj {a b : Repo} (h : mkExactItem a = mkExactItem b) : a = b := by
  cases a; cases b
  simp only [mkExactItem, Item.mk.injEq, List.cons.injEq, ItemAction.openUrl.injEq,
    and_true, true_and] at h
  simp [h.1, h.2.1, h.2.2]

theorem mkFuzzyItem_inj {a b : Repo} (h : mkFuzzyItem a = mkFuzzyItem b) : a = b := by
  cases a; cases b
  simp only [mkFuzzyItem, Item.mk.injEq, List.cons.injEq, ItemAction.openUrl.injEq,
    and_true, true_and] at h
  simp [h.1, h.2.1, h.2.2]

theorem mkExactItem_ne_mkFuzzyItem (a b : Repo) : mkExactItem a ≠ mkFuzzyItem b := by
  intro h
  have h2 := congrArg Item.actions h
  simp only [mkExactItem, mkFuzzyItem, List.cons.injEq, ItemAction.openUrl.injEq] at h2
  exact absurd h2.1.1 (by decide)

/-! The claims. -/

/-- C1: for every cached record whose lowercased name starts with the
lowercased, trimmed, non-empty query, the record lands in the exact class,
which carries no similarity score; the exact class is exactly the cache-order
filter of the records by the lowered-name prefix test; and the emitted result
list is all exact items followed by all fuzzy items, so every exact match
appears before every fuzzy-class record. -/
theorem c1_exact_class_first (scorer : Scorer) (repos : List Repo) (q : String) (r : Repo)
    (_hq : pyStrip q ≠ "") (hr : r ∈ repos)
    (hpre : pyStartsWith (pyLower r.name) (pyLower (pyStrip q)) = true) :
    r ∈ (classifyRepos scorer (pyLower (pyStrip q)) repos).1 ∧
    (classifyRepos scorer (pyLower (pyStrip q)) repos).1 =
      repos.filter (fun x => pyStartsWith (pyLower x.name) (pyLower (pyStrip q))) ∧
    searchItems scorer repos (pyLower (pyStrip q)) =
      ((classifyRepos scorer (pyLower (pyStrip q)) repos).1).map mkExactItem ++
        (sortFuzzy (classifyRepos scorer (pyLower (pyStrip q)) repos).2).map
          (fun p => mkFuzzyItem p.1) := by
  refine ⟨?_, classifyRepos_fst scorer (pyLower (pyStrip q)) repos, rfl⟩
  rw [classifyRepos_fst]
  exact List.mem_filter.mpr ⟨hr, hpre⟩

theorem c1_witness :
    (pyStrip "alb" ≠ "" ∧ repoA ∈ [repoA, repoB] ∧
      pyStartsWith (pyLower repoA.name) (pyLower (pyStrip "alb")) = true) ∧
    repoA ∈ (classifyRepos scorer100 (pyLower (pyStrip "alb")) [repoA, repoB]).1 :=
  ⟨⟨by decide, by decide, by decide⟩,
   (c1_exact_class_first scorer100 [repoA, repoB] "alb" repoA
      (by decide) (by decide) (by decide)).1⟩

/-- C2: a cached record whose lowered name does not start with the search term
enters the fuzzy class, and hence the result list, exactly when its similarity
score is strictly greater than 25; it never appears as an exact item.  (The
`fuzzy_search_repositories` helper with its `>= 75` cutoff is never called by
`handleTriggerQuery`; the live threshold is the `> 25` test of line 131.) -/
theorem c2_fuzzy_threshold (scorer : Scorer) (repos : List Repo) (q : String) (r : Repo)
    (hr : r ∈ repos)
    (hnp : pyStartsWith (pyLower r.name) (pyLower (pyStrip q)) = false) :
    ((∃ sc, (r, sc) ∈ (classifyRepos scorer (pyLower (pyStrip q)) repos).2) ↔
      25 < scorer (pyLower r.name) (pyLower (pyStrip q))) ∧
    (mkFuzzyItem r ∈ searchItems scorer repos (pyLower (pyStrip q)) ↔
      25 < scorer (pyLower r.name) (pyLower (pyStrip q))) ∧
    mkExactItem r ∉ searchItems scorer repos (pyLower (pyStrip q)) := by
  refine ⟨?_, ?_, ?_⟩
  · constructor
    · rintro ⟨sc, hsc⟩
      obtain ⟨-, -, rfl, h25⟩ := (mem_classifyRepos_snd ..).mp hsc
      exact h25
    · intro h25
      exact ⟨scorer (pyLower r.name) (pyLower (pyStrip q)),
        (mem_classifyRepos_snd ..).mpr ⟨hr, hnp, rfl, h25⟩⟩
  · constructor
    · intro hmem
      rcases List.mem_append.mp hmem with hA | hB
      · obtain ⟨x, -, hx⟩ := List.mem_map.mp hA
        exact absurd hx (mkExactItem_ne_mkFuzzyItem x r)
      · obtain ⟨p, hp, hpr⟩ := List.mem_map.mp hB
        have hp2 : p ∈ (classifyRepos scorer (pyLower (pyStrip q)) repos).2 :=
          ((sortFuzzy_perm _).mem_iff).mp hp
        have hp1 : p.1 = r := mkFuzzyItem_inj hpr
        obtain ⟨-, -, hval, h25⟩ := (mem_classifyRepos_snd ..).mp
          (show (p.1, p.2) ∈ _ from hp2)
        rw [hp1] at hval
        rw [hval] at h25
        exact h25
    · intro h25
      have hmem : (r, scorer (pyLower r.name) (pyLower (pyStrip q))) ∈
          sortFuzzy (classifyRepos scorer (pyLower (pyStrip q)) repos).2 :=
        ((sortFuzzy_perm _).mem_iff).mpr
          ((mem_classifyRepos_snd ..).mpr ⟨hr, hnp, rfl, h25⟩)
      exact List.mem_append_right _ (List.mem_map_of_mem _ hmem)
  · intro hmem
    rcases List.mem_append.mp hmem with hA | hB
    · obtain ⟨x, hx, hxe⟩ := List.mem_map.mp hA
      rw [classifyRepos_fst] at hx
      have : x = r := mkExactItem_inj hxe
      rw [this] at hx
      rw [(List.mem_filter.mp hx).2] at hnp
      exact absurd hnp (by decide)
    · obtain ⟨p, -, hpr⟩ := List.mem_map.mp hB
      exact absurd hpr.symm (mkExactItem_ne_mkFuzzyItem r p.1)

theorem c2_witness :
    (repoB ∈ [repoA, repoB] ∧
      pyStartsWith (pyLower repoB.name) (pyLower (pyStrip "alb")) = false) ∧
    ((∃ sc, (repoB, sc) ∈ (classifyRepos scorer100 (pyLower (pyStrip "alb")) [repoA, repoB]).2) ↔
      25 < scorer100 (pyLower repoB.name) (pyLower (pyStrip "alb"))) :=
  ⟨⟨by decide, by decide⟩,
   (c2_fuzzy_threshold scorer100 [repoA, repoB] "alb" repoB (by decide) (by decide)).1⟩

/-- C3: the fuzzy result segment is sorted by score descending (a strictly
higher-scored entry always comes earlier), and the sort is stable: two entries
with equal scores keep the relative order they had in the unsorted fuzzy list,
which lists them in cache order. -/
theorem c3_fuzzy_sorted_stable (scorer : Scorer) (repos : List Repo) (t : String) :
    (sortFuzzy (classifyRepos scorer t repos).2).Pairwise (fun a b => b.2 ≤ a.2) ∧
    (∀ i j (hi : i < (sortFuzzy (classifyRepos scorer t repos).2).length)
        (hj : j < (sortFuzzy (classifyRepos scorer t repos).2).length),
        (sortFuzzy (classifyRepos scorer t repos).2)[j].2 <
          (sortFuzzy (classifyRepos scorer t repos).2)[i].2 → i < j) ∧
    (∀ a b : Repo × Rat, a.2 = b.2 →
      [a, b].Sublist (classifyRepos scorer t repos).2 →
      [a, b].Sublist (sortFuzzy (classifyRepos scorer t repos).2)) := by
  have hp := sortFuzzy_pairwise (classifyRepos scorer t repos).2
  refine ⟨hp, ?_, ?_⟩
  · intro i j hi hj hlt
    rcases lt_trichotomy i j with hij | rfl | hij
    · exact hij
    · exact absurd hlt (lt_irrefl _)
    · have := (List.pairwise_iff_getElem.mp hp) j i hj hi hij
      exact absurd hlt (not_lt.mpr this)
  · intro a b hab hs
    exact sortFuzzy_stable _ a b (by simp [scoreDescLe, hab]) hs

theorem c3_witness :
    ((100 : Rat) = 100 ∧
      [(repoA, (100 : Rat)), (repoB, 100)].Sublist
        (classifyRepos scorer100 "zz" [repoA, repoB]).2) ∧
    [(repoA, (100 : Rat)), (repoB, 100)].Sublist
      (sortFuzzy (classifyRepos scorer100 "zz" [repoA, repoB]).2) :=
  ⟨⟨rfl, List.Sublist.refl _⟩,
   (c3_fuzzy_sorted_stable scorer100 [repoA, repoB] "zz").2.2
     (repoA, 100) (repoB, 100) rfl (List.Sublist.refl _)⟩

/-- C4, counterexample: the claim says surrounding whitespace of either string
never changes the classification, but record names are only lowercased, never
trimmed (line 127), so a name carrying a leading space loses its prefix match:
against the query "albert", the name "albert" classifies exact while the name
" albert" classifies fuzzy (its token-set score against the query is 100, as
both sides hold the single token "albert"). -/
theorem c4_counterexample :
    classOf scorer100 "albert" (pyLower (pyStrip "albert")) = MatchClass.exact ∧
    classOf scorer100 " albert" (pyLower (pyStrip "albert")) = MatchClass.fuzzy ∧
    MatchClass.exact ≠ MatchClass.fuzzy := by
  decide

/-- C4, amended: the query is trimmed and lowercased and record names are
lowercased but not trimmed, so classification and score are unchanged by case
changes of the record name and by case or surrounding-whitespace changes of
the query; whitespace surrounding a record name is not normalized away. -/
theorem c4_normalization_invariance (scorer : Scorer) (n n2 q q2 : String)
    (hn : pyLower n2 = pyLower n)
    (hq : pyLower (pyStrip q2) = pyLower (pyStrip q)) :
    classOf scorer n2 (pyLower (pyStrip q2)) = classOf scorer n (pyLower (pyStrip q)) ∧
    scorer (pyLower n2) (pyLower (pyStrip q2)) = scorer (pyLower n) (pyLower (pyStrip q)) := by
  rw [classOf, classOf, hn, hq]
  exact ⟨rfl, rfl⟩

theorem c4_witness :
    (pyLower "ALBERT-github" = pyLower "albert-GITHUB" ∧
      pyLower (pyStrip "  Alb ") = pyLower (pyStrip "alB")) ∧
    classOf scorer100 "ALBERT-github" (pyLower (pyStrip "  Alb ")) =
      classOf scorer100 "albert-GITHUB" (pyLower (pyStrip "alB")) :=
  ⟨⟨by decide, by decide⟩,
   (c4_normalization_invariance scorer100 "ALBERT-github" "albert-GITHUB" "  Alb " "alB"
      (by decide) (by decide)).1⟩

/-- C5, counterexample: `cache_repositories` opens the cache file with mode
"w", which truncates it before `json.dump` writes the new text, so the write
is not atomic: the empty truncated file is an observable intermediate state
that is neither the previously stored snapshot nor the new one — a reader can
observe a half-written snapshot, and a write failing right after truncation
leaves the old snapshot destroyed. -/
theorem c5_counterexample :
    some ([] : List Char) ∈ cacheWriteStates (some (dumpChars [repoA])) [repoB] ∧
    some ([] : List Char) ≠ some (dumpChars [repoA]) ∧
    some ([] : List Char) ≠ some (dumpChars [repoB]) := by
  decide

/-- C5, amended: the replace operation overwrites the stored snapshot in place
by truncating the file and then streaming the new text: before the write the
file holds the old contents, every intermediate state is some prefix of the
new text — starting from the empty truncated file — and only the final state
holds the complete new snapshot.  A failure partway therefore leaves a prefix
of the new text, not the previous snapshot. -/
theorem c5_truncate_then_write (old : Option (List Char)) (rs : List Repo) :
    (cacheWriteStates old rs).head? = some old ∧
    some ([] : List Char) ∈ cacheWriteStates old rs ∧
    some (dumpChars rs) ∈ cacheWriteStates old rs ∧
    ∀ s ∈ (cacheWriteStates old rs).tail,
      ∃ i, i ≤ (dumpChars rs).length ∧ s = some ((dumpChars rs).take i) := by
  refine ⟨rfl, ?_, ?_, ?_⟩
  · rw [cacheWriteStates]
    refine List.mem_cons_of_mem _ ?_
    rw [show some ([] : List Char) = some ((dumpChars rs).take 0) by simp]
    exact List.mem_map_of_mem _ (List.mem_range.mpr (Nat.succ_pos _))
  · rw [cacheWriteStates]
    refine List.mem_cons_of_mem _ ?_
    rw [show some (dumpChars rs) = some ((dumpChars rs).take (dumpChars rs).length) by simp]
    exact List.mem_map_of_mem _ (List.mem_range.mpr (Nat.lt_succ_self _))
  · intro s hs
    rw [cacheWriteStates] at hs
    simp only [List.tail_cons, List.mem_map, List.mem_range] at hs
    obtain ⟨i, hi, rfl⟩ := hs
    exact ⟨i, Nat.lt_succ_iff.mp hi, rfl⟩

theorem c5_witness :
    ∃ i, i ≤ (dumpChars [repoB]).length ∧
      some ([] : List Char) = some ((dumpChars [repoB]).take i) :=
  (c5_truncate_then_write (some (dumpChars [repoA])) [repoB]).2.2.2
    (some []) (by decide)

/-- C6: replacing the cache with a record sequence and loading it back yields
the dumped document, and decoding that document through the field accesses the
plugin performs returns exactly the original records in the same order. -/
theorem c6_replace_load_roundtrip (rs : List Repo) (fs : CacheFile) :
    load_cached_repositories (cache_repositories rs fs) = some (reposToJson rs) ∧
    jsonToRepos (reposToJson rs) = some rs := by
  refine ⟨rfl, ?_⟩
  rw [reposToJson, jsonToRepos]
  induction rs with
  | nil => rfl
  | cons r rest ih =>
    rw [List.map_cons, jsonToReposAux, ih]
    rfl

/-- C7: whenever the trimmed, lowercased query equals "refresh cache", the
refresh prompt item is emitted whatever the cache holds; and when a non-empty
cache is present the very same query still falls through to the search pass
over it, whose emission follows the refresh prompt in the output. -/
theorem c7_refresh_keyword (scorer : Scorer) (token : Option String)
    (cached : Option (List Repo)) (q : String)
    (h : pyLower (pyStrip q) = "refresh cache") :
    refreshPromptItem ∈ handleTriggerQuery scorer token cached q ∧
    ∀ rs, cached = some rs → rs ≠ [] →
      handleTriggerQuery scorer token cached q =
        (if strFalsy token then [tokenPromptItem (pyStrip q)] else []) ++
          ([refreshPromptItem] ++ searchEmission scorer rs "refresh cache") := by
  have hne : pyStrip q ≠ "" := by
    intro h0
    rw [h0] at h
    exact absurd h (by decide)
  constructor
  · simp [handleTriggerQuery, hne, h]
  · rintro rs rfl hrs
    have hfal : reposFalsy (some rs) = false := by
      cases rs with
      | nil => exact absurd rfl hrs
      | cons a l => rfl
    simp [handleTriggerQuery, hne, h, hfal]

theorem c7_witness :
    pyLower (pyStrip " Refresh CACHE ") = "refresh cache" ∧
    refreshPromptItem ∈
      handleTriggerQuery scorer100 (some "tok") (some [repoA]) " Refresh CACHE " :=
  ⟨by decide,
   (c7_refresh_keyword scorer100 (some "tok") (some [repoA]) " Refresh CACHE "
      (by decide)).1⟩

/-- C8: on a query whose trimmed text is empty, the output is the credential
and cache prompts (as applicable) followed by exactly one placeholder item;
the match engine is never reached: no emitted item carries an open-URL action
and the "no results" item is absent. -/
theorem c8_empty_query (scorer : Scorer) (token : Option String)
    (cached : Option (List Repo)) (q : String) (h : pyStrip q = "") :
    handleTriggerQuery scorer token cached q =
      (if strFalsy token then [tokenPromptItem ""] else []) ++
        (if reposFalsy cached then [cachePromptItem] else []) ++ [placeholderItem] ∧
    (handleTriggerQuery scorer token cached q).count placeholderItem = 1 ∧
    ∀ it ∈ handleTriggerQuery scorer token cached q,
      (∀ k u, ItemAction.openUrl k u ∉ it.actions) ∧ it ≠ noResultsItem := by
  have heq : handleTriggerQuery scorer token cached q =
      (if strFalsy token then [tokenPromptItem ""] else []) ++
        (if reposFalsy cached then [cachePromptItem] else []) ++ [placeholderItem] := by
    rw [handleTriggerQuery, h]
    rfl
  refine ⟨heq, ?_, ?_⟩
  · rw [heq]
    cases hst : strFalsy token <;> cases hrp : reposFalsy cached <;> simp <;> decide
  · intro it hit
    rw [heq] at hit
    have hit2 : it = tokenPromptItem "" ∨ it = cachePromptItem ∨ it = placeholderItem := by
      rcases List.mem_append.mp hit with h1 | h2
      · rcases List.mem_append.mp h1 with h3 | h4
        · cases hst : strFalsy token <;> rw [hst] at h3 <;> simp at h3
          exact Or.inl h3
        · cases hrp : reposFalsy cached <;> rw [hrp] at h4 <;> simp at h4
          exact Or.inr (Or.inl h4)
      · simp at h2
        exact Or.inr (Or.inr h2)
    rcases hit2 with rfl | rfl | rfl
    · exact ⟨fun k u => by simp [tokenPromptItem], by decide⟩
    · exact ⟨fun k u => by simp [cachePromptItem], by decide⟩
    · exact ⟨fun k u => by simp [placeholderItem], by decide⟩

theorem c8_witness :
    pyStrip "   " = "" ∧
    (handleTriggerQuery scorer100 (some "tok") (some [repoA]) "   ").count placeholderItem = 1 :=
  ⟨by decide,
   (c8_empty_query scorer100 (some "tok") (some [repoA]) "   " (by decide)).2.1⟩

/-- C9: a stored cache holding the empty record list is handled exactly like
an absent cache — the whole query evaluation produces the same output, the
initialize-cache prompt is emitted, and on a non-empty query the evaluation
returns without any match item (no open-URL action anywhere) and without the
"no results" item. -/
theorem c9_empty_cache_like_absent (scorer : Scorer) (token : Option String) (q : String) :
    handleTriggerQuery scorer token (some []) q = handleTriggerQuery scorer token none q ∧
    cachePromptItem ∈ handleTriggerQuery scorer token (some []) q ∧
    (pyStrip q ≠ "" → ∀ it ∈ handleTriggerQuery scorer token (some []) q,
      (∀ k u, ItemAction.openUrl k u ∉ it.actions) ∧ it ≠ noResultsItem) := by
  refine ⟨rfl, ?_, ?_⟩
  · simp [handleTriggerQuery, reposFalsy]
  · intro hne it hit
    rw [handleTriggerQuery] at hit
    rw [if_neg hne] at hit
    have hit2 : it = tokenPromptItem (pyStrip q) ∨ it = cachePromptItem ∨
        it = refreshPromptItem := by
      rcases List.mem_append.mp hit with h1 | h2
      · rcases List.mem_append.mp h1 with h3 | h4
        · cases hst : strFalsy token <;> rw [hst] at h3 <;> simp at h3
          exact Or.inl h3
        · simp [reposFalsy] at h4
          exact Or.inr (Or.inl h4)
      · rw [show reposFalsy (some []) = true from rfl] at h2
        rcases List.mem_append.mp h2 with h5 | h6
        · by_cases hrc : pyLower (pyStrip q) = "refresh cache"
          · rw [if_pos hrc] at h5
            simp at h5
            exact Or.inr (Or.inr h5)
          · rw [if_neg hrc] at h5
            simp at h5
        · simp at h6
    rcases hit2 with rfl | rfl | rfl
    · refine ⟨fun k u => by simp [tokenPromptItem], ?_⟩
      intro hcon
      have h2 : md_name = "No repositories matching search string" :=
        congrArg Item.text hcon
      exact absurd h2 (by decide)
    · exact ⟨fun k u => by simp [cachePromptItem], by decide⟩
    · exact ⟨fun k u => by simp [refreshPromptItem], by decide⟩

theorem c9_witness :
    (pyStrip "alb" ≠ "" ∧
      cachePromptItem ∈ handleTriggerQuery scorer100 (some "tok") (some []) "alb") ∧
    cachePromptItem ≠ noResultsItem :=
  ⟨⟨by decide, by decide⟩,
   ((c9_empty_cache_like_absent scorer100 (some "tok") "alb").2.2
      (by decide) cachePromptItem (by decide)).2⟩

/-- C10: every item a search pass emits displays one cached record and its
open action carries that same record's URL, captured when the item was built
(the `lambda u=repo["html_url"]:` default argument), so selecting any item
opens its own record's URL. -/
theorem c10_action_captures_own_url (scorer : Scorer) (repos : List Repo) (t : String) :
    ∀ it ∈ searchItems scorer repos t, ∃ r, r ∈ repos ∧
      it.text = r.name ∧ it.subtext = r.full_name ∧
      ∃ k, it.actions = [ItemAction.openUrl k r.html_url] := by
  intro it hit
  rw [searchItems] at hit
  rcases List.mem_append.mp hit with hA | hB
  · obtain ⟨x, hx, rfl⟩ := List.mem_map.mp hA
    rw [classifyRepos_fst] at hx
    exact ⟨x, (List.mem_filter.mp hx).1, rfl, rfl, "eopen", rfl⟩
  · obtain ⟨p, hp, rfl⟩ := List.mem_map.mp hB
    have hp2 : p ∈ (classifyRepos scorer t repos).2 := ((sortFuzzy_perm _).mem_iff).mp hp
    obtain ⟨hmem, -, -, -⟩ := (mem_classifyRepos_snd scorer t repos p.1 p.2).mp
      (show (p.1, p.2) ∈ _ from hp2)
    exact ⟨p.1, hmem, rfl, rfl, "fopen", rfl⟩

theorem c10_witness :
    mkExactItem repoA ∈ searchItems scorer100 [repoA] (pyLower (pyStrip "alb")) ∧
    ∃ r, r ∈ [repoA] ∧ (mkExactItem repoA).text = r.name ∧
      (mkExactItem repoA).subtext = r.full_name ∧
      ∃ k, (mkExactItem repoA).actions = [ItemAction.openUrl k r.html_url] := by
  have hmem : mkExactItem repoA ∈ searchItems scorer100 [repoA] (pyLower (pyStrip "alb")) :=
    List.mem_append_left _ (List.mem_map_of_mem _ (by decide))
  exact ⟨hmem, c10_action_captures_own_url scorer100 [repoA] _ (mkExactItem repoA) hmem⟩

end AlbertGithub
